import Mathlib

/-!
Verification development for the mediearn payment-gated encrypted content
ledger.  The definitions below are a shallow embedding of the server code:
the AES wrapper functions `encryptContent` / `decryptContent`, the
`BlobStorage` ledger (`createBlob`, `recordPayment`, `hasPaidAccess`,
`getPaymentInfo`, `getBlob`, `deleteBlob`), the Express route handlers for
upload, preview, content, delete and search, and the `ArticleDatabase`
migration and search functions.

External collaborators (the Node crypto AES-256-CBC primitive, UTF-8
encoding/decoding, the Walrus storage network, the x402 payment
middleware) are modelled as explicit parameters, mirroring the narrow
contracts through which the code consumes them.  JavaScript `Map` objects
and plain-object maps are modelled as association lists with JS `Map.set`
update-in-place semantics; JS strings are modelled as Lean strings with
the character list standing in for the code-unit sequence.
-/

namespace Mediearn

/-! ## Association lists modelling JS Map and plain-object maps -/

/-- Lookup of a key, first match wins (JS maps have unique keys). -/
def alookup {α : Type} : List (String × α) → String → Option α
  | [], _ => none
  | (k, v) :: rest, key => if k = key then some v else alookup rest key

/-- JS Map.set / object key assignment: overwrite in place if the key is
present, otherwise append at the end. -/
def ainsert {α : Type} : List (String × α) → String → α → List (String × α)
  | [], key, v => [(key, v)]
  | (k, w) :: rest, key, v =>
      if k = key then (key, v) :: rest else (k, w) :: ainsert rest key v

/-- JS Map.delete: remove the entry for the key. -/
def aerase {α : Type} : List (String × α) → String → List (String × α)
  | [], _ => []
  | (k, w) :: rest, key => if k = key then rest else (k, w) :: aerase rest key

theorem alookup_ainsert_self {α : Type} (l : List (String × α)) (k : String) (v : α) :
    alookup (ainsert l k v) k = some v := by
  induction l with
  | nil => simp [ainsert, alookup]
  | cons p rest ih =>
      obtain ⟨k0, v0⟩ := p
      by_cases h : k0 = k
      · simp [ainsert, h, alookup]
      · simp [ainsert, h, alookup, ih]

theorem alookup_ainsert_ne {α : Type} (l : List (String × α)) (k k' : String) (v : α)
    (h : k' ≠ k) : alookup (ainsert l k v) k' = alookup l k' := by
  induction l with
  | nil => simp [ainsert, alookup, Ne.symm h]
  | cons p rest ih =>
      obtain ⟨k0, v0⟩ := p
      by_cases h0 : k0 = k
      · subst h0
        simp [ainsert, alookup, Ne.symm h]
      · simp [ainsert, h0, alookup, ih]

theorem ainsert_ainsert_self {α : Type} (l : List (String × α)) (k : String) (v w : α) :
    ainsert (ainsert l k v) k w = ainsert l k w := by
  induction l with
  | nil => simp [ainsert]
  | cons p rest ih =>
      obtain ⟨k0, v0⟩ := p
      by_cases h : k0 = k
      · simp [ainsert, h]
      · simp [ainsert, h, ih]

theorem alookup_eq_none_of_not_mem {α : Type} (l : List (String × α)) (k : String)
    (h : k ∉ l.map Prod.fst) : alookup l k = none := by
  induction l with
  | nil => simp [alookup]
  | cons p rest ih =>
      obtain ⟨k0, v0⟩ := p
      simp only [List.map_cons, List.mem_cons] at h
      push_neg at h
      simp [alookup, Ne.symm h.1, ih h.2]

theorem alookup_aerase_self {α : Type} (l : List (String × α)) (k : String)
    (hnd : (l.map Prod.fst).Nodup) : alookup (aerase l k) k = none := by
  induction l with
  | nil => simp [aerase, alookup]
  | cons p rest ih =>
      obtain ⟨k0, v0⟩ := p
      simp only [List.map_cons, List.nodup_cons] at hnd
      by_cases h : k0 = k
      · subst h
        simp only [aerase, if_pos rfl]
        exact alookup_eq_none_of_not_mem rest k0 hnd.1
      · simp [aerase, h, alookup, ih hnd.2]

/-! ## JS string and buffer helpers -/

/-- Value of one hex digit, as parsed by Buffer.from with hex encoding. -/
def hexDigitVal (c : Char) : Option Nat :=
  if ('0' ≤ c ∧ c ≤ '9') then some (c.toNat - '0'.toNat)
  else if ('a' ≤ c ∧ c ≤ 'f') then some (c.toNat - 'a'.toNat + 10)
  else if ('A' ≤ c ∧ c ≤ 'F') then some (c.toNat - 'A'.toNat + 10)
  else none

/-- Buffer.from with hex encoding: decode successive pairs of hex digits
into bytes, stopping at the first incomplete or invalid pair. -/
def hexDecode : List Char → List Nat
  | c1 :: c2 :: rest =>
      match hexDigitVal c1, hexDigitVal c2 with
      | some hi, some lo => (16 * hi + lo) :: hexDecode rest
      | _, _ => []
  | _ => []

/-- JS String.replace with pattern 0x and empty replacement string:
remove the first occurrence of the substring 0x, scanning left to
right; leave the string unchanged when 0x does not occur. -/
def removeFirst0x : List Char → List Char
  | '0' :: 'x' :: rest => rest
  | c :: rest => c :: removeFirst0x rest
  | [] => []

/-! ## Content Cipher (encryptContent / decryptContent wrappers) -/

/-- Key derivation shared by encryptContent and decryptContent: strip a
0x occurrence from the secret and hex-decode the remainder. -/
def deriveKey (aesSecret : String) : List Nat :=
  hexDecode (removeFirst0x aesSecret.data)

/-- Shallow embedding of encryptContent from the server source.  The
external collaborators are parameters: aesEnc is the Node crypto
AES-256-CBC encryption primitive (key, IV, plaintext bytes), utf8Enc is
the UTF-8 encoding of a JS string, aesSecret is the value of the
AES_SECRET environment variable, and ivRand is the 16 random bytes
produced by crypto.randomBytes.  Returns the encrypted data together
with the IV, or the thrown error message. -/
def encryptContent (aesEnc : List Nat → List Nat → List Nat → List Nat)
    (utf8Enc : String → List Nat) (aesSecret : Option String)
    (ivRand : List Nat) (content : String) :
    Except String (List Nat × List Nat) :=
  match aesSecret with
  | none => Except.error "AES_SECRET environment variable is required"
  | some secret =>
      let key := deriveKey secret
      if key.length = 32 then
        Except.ok (aesEnc key ivRand (utf8Enc content), ivRand)
      else
        Except.error "AES key must be 32 bytes"

/-- Shallow embedding of decryptContent from the server source: the same
key derivation as encryptContent, then the AES-256-CBC decryption
primitive and UTF-8 decoding of the result. -/
def decryptContent (aesDec : List Nat → List Nat → List Nat → List Nat)
    (utf8Dec : List Nat → String) (aesSecret : Option String)
    (encryptedData iv : List Nat) : Except String String :=
  match aesSecret with
  | none => Except.error "AES_SECRET environment variable is required"
  | some secret =>
      let key := deriveKey secret
      if key.length = 32 then
        Except.ok (utf8Dec (aesDec key iv encryptedData))
      else
        Except.error "AES key must be 32 bytes"

/-- Concrete code-point byte encoding used to instantiate the abstract
codec parameters in witnesses. -/
def charByteEnc (s : String) : List Nat := s.data.map Char.toNat

/-- Concrete code-point byte decoding, inverse of charByteEnc. -/
def charByteDec (l : List Nat) : String := String.mk (l.map Char.ofNat)

theorem charByteDec_charByteEnc (s : String) : charByteDec (charByteEnc s) = s := by
  cases s with
  | mk data =>
      have h : (Char.ofNat ∘ Char.toNat) = id := funext Char.ofNat_toNat
      simp [charByteDec, charByteEnc, List.map_map, h]

/-- Claim C2: for every plaintext string P and every secret K that
derives a 32-byte AES key, decrypting the ciphertext produced by
encryptContent under the same process secret, with the IV that
encryptContent returned, yields exactly P.  The AES-256-CBC primitive
and the UTF-8 codec are external collaborators, assumed to satisfy
their inverse contracts. -/
theorem C2_encrypt_decrypt_roundtrip
    (aesEnc aesDec : List Nat → List Nat → List Nat → List Nat)
    (utf8Enc : String → List Nat) (utf8Dec : List Nat → String)
    (K : String) (ivRand : List Nat) (P : String)
    (hcipher : ∀ k iv m, aesDec k iv (aesEnc k iv m) = m)
    (hutf8 : ∀ s, utf8Dec (utf8Enc s) = s)
    (hkey : (deriveKey K).length = 32)
    (ct iv : List Nat)
    (henc : encryptContent aesEnc utf8Enc (some K) ivRand P =
      Except.ok (ct, iv)) :
    decryptContent aesDec utf8Dec (some K) ct iv = Except.ok P := by
  simp [encryptContent, hkey] at henc
  obtain ⟨hct, hiv⟩ := henc
  subst hct
  subst hiv
  simp [decryptContent, hkey, hcipher, hutf8]

/-- Witness for claim C2 at a concrete secret, IV and plaintext, with
the identity cipher and the code-point codec instantiating the external
collaborator parameters. -/
theorem C2_encrypt_decrypt_roundtrip_witness :
    decryptContent (fun _ _ c => c) charByteDec
      (some "0000000000000000000000000000000000000000000000000000000000000000")
      (charByteEnc "hello world") (List.replicate 16 0) =
      Except.ok "hello world" :=
  C2_encrypt_decrypt_roundtrip (fun _ _ m => m) (fun _ _ c => c)
    charByteEnc charByteDec
    "0000000000000000000000000000000000000000000000000000000000000000"
    (List.replicate 16 0) "hello world"
    (fun _ _ _ => rfl) charByteDec_charByteEnc (by decide)
    (charByteEnc "hello world") (List.replicate 16 0) rfl

/-! ## Blob Ledger data model (blobStorage.ts BlobInfo) -/

structure PaymentDetails where
  price : String
  currency : String
  paymentAddress : String
  assetAddress : String
  network : String
deriving DecidableEq, Repr

structure AccessControl where
  type : String
  paymentDetails : PaymentDetails
  maxAccessCount : Option Nat
deriving DecidableEq, Repr

structure PaymentRecord where
  paymentId : String
  amount : String
  timestamp : String
  accessGranted : Bool
deriving DecidableEq, Repr

/-- Content blob record inside the walrus field.  The iv field is the
hex-encoded initialization vector stored by the upload handler; it is
absent on legacy plaintext items. -/
structure ContentBlobRecord where
  blobId : String
  storageEpochs : Nat
  isCertified : Bool
  uploadStatus : String
  uploadDate : String
  iv : Option String
deriving DecidableEq, Repr

structure WalrusInfo where
  contentBlob : ContentBlobRecord
  overallStatus : String
deriving DecidableEq, Repr

structure BlobInfo where
  id : String
  title : String
  uploadDate : String
  ownerAddress : String
  isPublic : Bool
  previewText : Option String
  accessControl : AccessControl
  payments : List (String × PaymentRecord)
  walrus : WalrusInfo
deriving DecidableEq, Repr

/-- The BlobStorage in-memory map together with the persisted registry
file that saveBlobInfo rewrites on every mutation.  savedFile is none
when the file has not yet been written in the modelled window. -/
structure BlobStorageState where
  blobs : List (String × BlobInfo)
  savedFile : Option (List (String × BlobInfo))
deriving DecidableEq, Repr

/-- BlobStorage.saveBlobInfo: whole-file rewrite of the registry. -/
def saveBlobInfo (blobs : List (String × BlobInfo)) : BlobStorageState :=
  { blobs := blobs, savedFile := some blobs }

/-- Hard-coded payment terms installed by createBlob. -/
def defaultPaymentDetails (ownerAddress : String) : PaymentDetails :=
  { price := "0.01", currency := "USDC", paymentAddress := ownerAddress,
    assetAddress := "0xA0b86991C6218b36c1d19D4a2e9Eb0cE3606EB48",
    network := "base-testnet" }

/-- Hard-coded access control installed by createBlob. -/
def defaultAccessControl (ownerAddress : String) : AccessControl :=
  { type := "payment-gated",
    paymentDetails := defaultPaymentDetails ownerAddress,
    maxAccessCount := none }

/-- Default walrus block used by createBlob when the caller supplies a
falsy walrus value. -/
def pendingWalrus (now : String) : WalrusInfo :=
  { contentBlob :=
      { blobId := "", storageEpochs := 1, isCertified := false,
        uploadStatus := "pending", uploadDate := now, iv := none },
    overallStatus := "pending" }

/-- Caller-supplied argument of createBlob: BlobInfo minus id, uploadDate
and payments.  The accessControl field is accepted but overwritten. -/
structure CreateBlobInput where
  title : String
  ownerAddress : String
  isPublic : Bool
  previewText : Option String
  accessControl : AccessControl
  walrus : Option WalrusInfo
deriving DecidableEq, Repr

/-- BlobStorage.createBlob: build the BlobInfo with hard-coded payment
terms, an empty payments map and the caller-supplied blobId as id,
store it under blobId and rewrite the registry file. -/
def createBlob (st : BlobStorageState) (blobData : CreateBlobInput)
    (blobId now : String) : BlobInfo × BlobStorageState :=
  let blob : BlobInfo :=
    { id := blobId, title := blobData.title, uploadDate := now,
      ownerAddress := blobData.ownerAddress, isPublic := blobData.isPublic,
      previewText := blobData.previewText,
      accessControl := defaultAccessControl blobData.ownerAddress,
      payments := [],
      walrus := blobData.walrus.getD (pendingWalrus now) }
  (blob, saveBlobInfo (ainsert st.blobs blobId blob))

/-- Payment record written by recordPayment: fresh ids and timestamp,
accessGranted true. -/
def freshPayment (paymentId amount now : String) : PaymentRecord :=
  { paymentId := paymentId, amount := amount, timestamp := now,
    accessGranted := true }

/-- BlobStorage.recordPayment: upsert one payment record keyed by the
user address, then rewrite the registry file; false when the id is
unknown. -/
def recordPayment (st : BlobStorageState)
    (blobId userAddress paymentId amount now : String) :
    Bool × BlobStorageState :=
  match alookup st.blobs blobId with
  | none => (false, st)
  | some blob =>
      let blob2 :=
        { blob with
          payments := ainsert blob.payments userAddress
            (freshPayment paymentId amount now) }
      (true, saveBlobInfo (ainsert st.blobs blobId blob2))

/-- BlobStorage.hasPaidAccess (defined in the source, called nowhere). -/
def hasPaidAccess (st : BlobStorageState) (blobId userAddress : String) : Bool :=
  match alookup st.blobs blobId with
  | none => false
  | some blob =>
      match alookup blob.payments userAddress with
      | some payment => payment.accessGranted
      | none => false

/-- BlobStorage.getPaymentInfo. -/
def getPaymentInfo (st : BlobStorageState) (blobId userAddress : String) :
    Option PaymentRecord :=
  match alookup st.blobs blobId with
  | none => none
  | some blob => alookup blob.payments userAddress

/-- BlobStorage.getAllBlobs. -/
def getAllBlobs (st : BlobStorageState) : List BlobInfo :=
  st.blobs.map Prod.snd

/-- BlobStorage.getBlob. -/
def getBlob (st : BlobStorageState) (id : String) : Option BlobInfo :=
  alookup st.blobs id

/-- BlobStorage.deleteBlob: delete the map entry; rewrite the registry
file only when something was deleted. -/
def deleteBlob (st : BlobStorageState) (id : String) :
    Bool × BlobStorageState :=
  if (alookup st.blobs id).isSome then
    (true, saveBlobInfo (aerase st.blobs id))
  else (false, st)

/-- Concrete sample blob used in witnesses and counterexamples. -/
def sampleBlob : BlobInfo :=
  { id := "blob1", title := "A", uploadDate := "2024-01-01T00:00:00Z",
    ownerAddress := "0xabc", isPublic := false,
    previewText := some "A\n\n\n\nhel",
    accessControl := defaultAccessControl "0xabc",
    payments := [],
    walrus :=
      { contentBlob :=
          { blobId := "wal1", storageEpochs := 1,
            isCertified := true, uploadStatus := "success",
            uploadDate := "2024-01-01T00:00:00Z",
            iv := some "00112233445566778899aabbccddeeff" },
        overallStatus := "success" } }

/-- Concrete one-item ledger state used in witnesses. -/
def sampleState : BlobStorageState :=
  { blobs := [("blob1", sampleBlob)],
    savedFile := some [("blob1", sampleBlob)] }

/-- Claim C10: createBlob stores hard-coded price terms regardless of the
caller-supplied accessControl value (price 0.01 USDC on base-testnet
with the fixed asset address, payout to the ownerAddress of the input),
initializes the payments map empty, and stores the item under the
caller-supplied blobId, which also becomes its id. -/
theorem C10_createBlob_hardcoded_terms
    (st : BlobStorageState) (blobData : CreateBlobInput) (blobId now : String) :
    (createBlob st blobData blobId now).1.accessControl.paymentDetails.price = "0.01" ∧
    (createBlob st blobData blobId now).1.accessControl.paymentDetails.currency = "USDC" ∧
    (createBlob st blobData blobId now).1.accessControl.paymentDetails.assetAddress =
      "0xA0b86991C6218b36c1d19D4a2e9Eb0cE3606EB48" ∧
    (createBlob st blobData blobId now).1.accessControl.paymentDetails.network =
      "base-testnet" ∧
    (createBlob st blobData blobId now).1.accessControl.paymentDetails.paymentAddress =
      blobData.ownerAddress ∧
    (createBlob st blobData blobId now).1.payments = [] ∧
    (createBlob st blobData blobId now).1.id = blobId ∧
    getBlob (createBlob st blobData blobId now).2 blobId =
      some (createBlob st blobData blobId now).1 := by
  simp [createBlob, getBlob, saveBlobInfo, defaultAccessControl,
    defaultPaymentDetails, alookup_ainsert_self]

/-- Claim C8: recordPayment returns false and changes nothing when the id
is not in the ledger; on a known id it returns true and upserts exactly
one accessLog entry keyed by the requester; a repeat access by the same
requester overwrites that single entry rather than accumulating a list;
other items and other requesters are unchanged. -/
theorem C8_recordPayment_upsert
    (st : BlobStorageState) (id user pid amt now : String) :
    (getBlob st id = none → recordPayment st id user pid amt now = (false, st)) ∧
    (∀ blob, getBlob st id = some blob →
      (recordPayment st id user pid amt now).1 = true ∧
      getBlob (recordPayment st id user pid amt now).2 id =
        some { blob with
               payments := ainsert blob.payments user
                 (freshPayment pid amt now) } ∧
      getPaymentInfo (recordPayment st id user pid amt now).2 id user =
        some (freshPayment pid amt now) ∧
      (∀ u, u ≠ user →
        getPaymentInfo (recordPayment st id user pid amt now).2 id u =
          alookup blob.payments u) ∧
      (∀ id2, id2 ≠ id →
        getBlob (recordPayment st id user pid amt now).2 id2 = getBlob st id2) ∧
      (∀ pid2 amt2 now2,
        (getBlob (recordPayment (recordPayment st id user pid amt now).2
            id user pid2 amt2 now2).2 id).map BlobInfo.payments =
          some (ainsert blob.payments user
            (freshPayment pid2 amt2 now2)))) := by
  constructor
  · intro h
    simp [recordPayment, getBlob] at h ⊢
    simp [h]
  · intro blob h
    simp only [getBlob] at h
    refine ⟨?_, ?_, ?_, ?_, ?_, ?_⟩
    · simp [recordPayment, h]
    · simp [recordPayment, h, getBlob, saveBlobInfo, alookup_ainsert_self]
    · simp [recordPayment, h, getPaymentInfo, saveBlobInfo,
        alookup_ainsert_self]
    · intro u hu
      simp [recordPayment, h, getPaymentInfo, saveBlobInfo,
        alookup_ainsert_self, alookup_ainsert_ne _ _ _ _ hu]
    · intro id2 hid
      simp [recordPayment, h, getBlob, saveBlobInfo,
        alookup_ainsert_ne _ _ _ _ hid]
    · intro pid2 amt2 now2
      simp [recordPayment, h, getBlob, saveBlobInfo, alookup_ainsert_self,
        ainsert_ainsert_self]

/-- Witness for claim C8 on a concrete one-item ledger. -/
theorem C8_recordPayment_upsert_witness :
    (recordPayment sampleState "blob1" "0xdef" "pay1" "0.01" "t1").1 = true ∧
    getPaymentInfo (recordPayment sampleState "blob1" "0xdef" "pay1" "0.01" "t1").2
      "blob1" "0xdef" = some (freshPayment "pay1" "0.01" "t1") :=
  ⟨((C8_recordPayment_upsert sampleState "blob1" "0xdef" "pay1" "0.01" "t1").2
      sampleBlob (by decide)).1,
   ((C8_recordPayment_upsert sampleState "blob1" "0xdef" "pay1" "0.01" "t1").2
      sampleBlob (by decide)).2.2.1⟩

/-- DELETE /api/blobs/:id handler outcome. -/
inductive DeleteResponse
  | ok (success : Bool) (message : String)
  | notFound (error : String)
deriving DecidableEq, Repr

/-- Shallow embedding of the DELETE /api/blobs/:id handler.  The remote
storage network is an explicit value of arbitrary type: the handler only
calls BlobStorage.deleteBlob and never touches the remote store. -/
def deleteEndpoint {ρ : Type} (st : BlobStorageState) (remote : ρ)
    (id : String) : DeleteResponse × BlobStorageState × ρ :=
  let r := deleteBlob st id
  if r.1 then (DeleteResponse.ok true "Blob deleted successfully", r.2, remote)
  else (DeleteResponse.notFound "Blob not found", r.2, remote)

/-- Claim C9: deleting an unknown id yields the 404 response and changes
nothing; deleting a known id yields the success response, after which
the id is no longer found; in both cases the remote storage blob is
untouched, whatever the remote store holds. -/
theorem C9_delete_behavior {ρ : Type} (st : BlobStorageState) (remote : ρ)
    (id : String) :
    (getBlob st id = none →
      deleteEndpoint st remote id =
        (DeleteResponse.notFound "Blob not found", st, remote)) ∧
    ((getBlob st id).isSome → (st.blobs.map Prod.fst).Nodup →
      (deleteEndpoint st remote id).1 =
        DeleteResponse.ok true "Blob deleted successfully" ∧
      getBlob (deleteEndpoint st remote id).2.1 id = none) ∧
    (deleteEndpoint st remote id).2.2 = remote := by
  refine ⟨?_, ?_, ?_⟩
  · intro h
    simp only [getBlob] at h
    simp [deleteEndpoint, deleteBlob, h]
  · intro h hnd
    simp only [getBlob] at h
    constructor
    · simp [deleteEndpoint, deleteBlob, h]
    · simp [deleteEndpoint, deleteBlob, h, getBlob, saveBlobInfo,
        alookup_aerase_self st.blobs id hnd]
  · by_cases h : (alookup st.blobs id).isSome
    · simp [deleteEndpoint, deleteBlob, h]
    · simp [deleteEndpoint, deleteBlob, h]

/-- Witness for claim C9: deleting the one known id succeeds and a
subsequent lookup misses; deleting an unknown id on the resulting state
returns the 404 response. -/
theorem C9_delete_behavior_witness :
    (deleteEndpoint sampleState "remote-store" "blob1").1 =
      DeleteResponse.ok true "Blob deleted successfully" ∧
    getBlob (deleteEndpoint sampleState "remote-store" "blob1").2.1 "blob1" = none :=
  (C9_delete_behavior sampleState "remote-store" "blob1").2.1
    (by decide) (by decide)

/-! ## Access Mediator: GET /api/blobs/:id/content -/

/-- Decision of the x402 payment middleware for one request: it either
reports no valid payment attached (and answers 402 itself) or reports a
verified payment (and lets the route handler run). -/
inductive PaymentCheck
  | unpaid
  | verified
deriving DecidableEq, Repr

/-- Result of reading the content blob from the Walrus storage network:
a null blob or empty file list (answered 404), a thrown error (answered
500), or the raw bytes of the stored file. -/
inductive FetchOutcome
  | noData
  | ioError (msg : String)
  | ok (bytes : List Nat)
deriving DecidableEq, Repr

/-- Payload of a 200 response of the content endpoint. -/
structure GrantedPayload where
  blobId : String
  title : String
  content : String
  uploadDate : String
  ownerAddress : String
  isPublic : Bool
  paymentInfo : Option PaymentRecord
deriving DecidableEq, Repr

/-- Responses of the content endpoint: 402 answered by the middleware,
400, 404, 500, or the 200 content payload. -/
inductive ContentResponse
  | paymentRequired
  | badRequest (error : String)
  | notFound (error : String)
  | serverError (error : String)
  | granted (payload : GrantedPayload)
deriving DecidableEq, Repr

/-- Shallow embedding of the GET /api/blobs/:id/content handler together
with the x402 middleware in front of it.  pc is the middleware decision
for this request, fetch is the Walrus read collaborator, aesDec and
utf8Dec are the external decryption collaborators, and paymentId and now
are the fresh payment id and timestamp generated during the request. -/
def contentRequest (aesDec : List Nat → List Nat → List Nat → List Nat)
    (utf8Dec : List Nat → String) (aesSecret : Option String)
    (pc : PaymentCheck) (st : BlobStorageState) (id : String)
    (userAddress : Option String) (fetch : String → FetchOutcome)
    (paymentId now : String) : ContentResponse × BlobStorageState :=
  match pc with
  | PaymentCheck.unpaid => (ContentResponse.paymentRequired, st)
  | PaymentCheck.verified =>
      match userAddress with
      | none =>
          (ContentResponse.badRequest "userAddress query parameter is required",
            st)
      | some user =>
          match getBlob st id with
          | none => (ContentResponse.notFound "Blob not found", st)
          | some blob =>
              if blob.walrus.contentBlob.blobId = "" then
                (ContentResponse.notFound "Content not available for this blob",
                  st)
              else
                match fetch blob.walrus.contentBlob.blobId with
                | FetchOutcome.noData =>
                    (ContentResponse.notFound "No blob data returned from Walrus",
                      st)
                | FetchOutcome.ioError msg =>
                    (ContentResponse.serverError msg, st)
                | FetchOutcome.ok bytes =>
                    let decoded : Except String String :=
                      match blob.walrus.contentBlob.iv with
                      | some ivHex =>
                          decryptContent aesDec utf8Dec aesSecret bytes
                            (hexDecode ivHex.data)
                      | none => Except.ok (utf8Dec bytes)
                    match decoded with
                    | Except.error msg => (ContentResponse.serverError msg, st)
                    | Except.ok finalContent =>
                        let st2 := (recordPayment st id user paymentId
                          blob.accessControl.paymentDetails.price now).2
                        (ContentResponse.granted
                          { blobId := id, title := blob.title,
                            content := finalContent,
                            uploadDate := blob.uploadDate,
                            ownerAddress := blob.ownerAddress,
                            isPublic := blob.isPublic,
                            paymentInfo := getPaymentInfo st2 id user },
                          st2)

/-- Replace the stored payments audit map of every item, leaving every
other stored field unchanged: st and overwritePayments pm st are two
ledger states that differ only in the stored payments maps. -/
def overwritePayments (pm : String → List (String × PaymentRecord))
    (st : BlobStorageState) : BlobStorageState :=
  { blobs := st.blobs.map (fun p => (p.1, { p.2 with payments := pm p.1 })),
    savedFile := st.savedFile }

theorem alookup_overwritePayments (pm : String → List (String × PaymentRecord))
    (st : BlobStorageState) (id : String) :
    alookup (overwritePayments pm st).blobs id =
      (alookup st.blobs id).map (fun b => { b with payments := pm id }) := by
  obtain ⟨blobs, saved⟩ := st
  induction blobs with
  | nil => simp [overwritePayments, alookup]
  | cons p rest ih =>
      obtain ⟨k, b⟩ := p
      by_cases h : k = id
      · simp [overwritePayments, alookup, h]
      · simpa [overwritePayments, alookup, h] using ih

theorem getPaymentInfo_recordPayment_self (st : BlobStorageState)
    (id user pid amt now : String) (blob : BlobInfo)
    (h : alookup st.blobs id = some blob) :
    getPaymentInfo (recordPayment st id user pid amt now).2 id user =
      some (freshPayment pid amt now) := by
  simp [recordPayment, h, getPaymentInfo, saveBlobInfo, alookup_ainsert_self]

/-- Claim C1: the grant decision of the content endpoint is independent
of the stored payments audit map: replacing every stored payments map
(in particular adding or removing a payment record for the same item
and requester) leaves the response unchanged; any request for which the
payment middleware reports no fresh payment is answered
PAYMENT_REQUIRED with the ledger untouched, whatever the recorded
payments say - so two sequential content requests without an
intervening fresh payment are both answered PAYMENT_REQUIRED, and an
existing payment record (hasPaidAccess true) never skips the
payment-verification step. -/
theorem C1_grant_independent_of_payments
    (aesDec : List Nat → List Nat → List Nat → List Nat)
    (utf8Dec : List Nat → String) (aesSecret : Option String)
    (pc : PaymentCheck) (st : BlobStorageState) (id : String)
    (userAddress : Option String) (fetch : String → FetchOutcome)
    (paymentId now : String)
    (pm : String → List (String × PaymentRecord)) :
    (contentRequest aesDec utf8Dec aesSecret pc st id userAddress fetch
        paymentId now).1 =
      (contentRequest aesDec utf8Dec aesSecret pc (overwritePayments pm st)
        id userAddress fetch paymentId now).1 ∧
    (∀ st2 : BlobStorageState,
      contentRequest aesDec utf8Dec aesSecret PaymentCheck.unpaid st2 id
        userAddress fetch paymentId now =
        (ContentResponse.paymentRequired, st2)) ∧
    (∀ st2 user, hasPaidAccess st2 id user = true →
      (contentRequest aesDec utf8Dec aesSecret PaymentCheck.unpaid st2 id
          userAddress fetch paymentId now).1 =
        ContentResponse.paymentRequired) := by
  refine ⟨?_, ?_, ?_⟩
  · cases pc with
    | unpaid => simp [contentRequest]
    | verified =>
        cases userAddress with
        | none => simp [contentRequest]
        | some user =>
            cases hb : alookup st.blobs id with
            | none =>
                simp [contentRequest, getBlob, alookup_overwritePayments, hb]
            | some blob =>
                have hb2 : alookup (overwritePayments pm st).blobs id =
                    some { blob with payments := pm id } := by
                  simp [alookup_overwritePayments, hb]
                simp only [contentRequest, getBlob, hb, hb2]
                by_cases hbid : blob.walrus.contentBlob.blobId = ""
                · simp [hbid]
                · simp only [hbid, if_false]
                  cases hf : fetch blob.walrus.contentBlob.blobId with
                  | noData => simp [hf]
                  | ioError msg => simp [hf]
                  | ok bytes =>
                      cases hiv : blob.walrus.contentBlob.iv with
                      | none =>
                          simp only [hf, hiv]
                          rw [getPaymentInfo_recordPayment_self st id user
                              paymentId blob.accessControl.paymentDetails.price
                              now blob hb,
                            getPaymentInfo_recordPayment_self
                              (overwritePayments pm st) id user paymentId
                              blob.accessControl.paymentDetails.price now
                              _ hb2]
                      | some ivHex =>
                          simp only [hf, hiv]
                          cases hd : decryptContent aesDec utf8Dec aesSecret
                              bytes (hexDecode ivHex.data) with
                          | error msg => simp [hd]
                          | ok finalContent =>
                              simp only [hd]
                              rw [getPaymentInfo_recordPayment_self st id user
                                  paymentId
                                  blob.accessControl.paymentDetails.price
                                  now blob hb,
                                getPaymentInfo_recordPayment_self
                                  (overwritePayments pm st) id user paymentId
                                  blob.accessControl.paymentDetails.price now
                                  _ hb2]
  · intro st2
    simp [contentRequest]
  · intro st2 user _
    simp [contentRequest]

/-- One-item ledger state in which the requester 0xdef already holds a
recorded payment for blob1. -/
def samplePaidState : BlobStorageState :=
  (recordPayment sampleState "blob1" "0xdef" "pay0" "0.01" "t0").2

/-- Witness for claim C1: on a ledger where 0xdef already has a recorded
payment for blob1, a request without a fresh payment is still answered
PAYMENT_REQUIRED. -/
theorem C1_grant_independent_of_payments_witness :
    (contentRequest (fun _ _ c => c) charByteDec
        (some "0000000000000000000000000000000000000000000000000000000000000000")
        PaymentCheck.unpaid samplePaidState "blob1" (some "0xdef")
        (fun _ => FetchOutcome.ok []) "pay1" "t1").1 =
      ContentResponse.paymentRequired :=
  (C1_grant_independent_of_payments (fun _ _ c => c) charByteDec
      (some "0000000000000000000000000000000000000000000000000000000000000000")
      PaymentCheck.unpaid samplePaidState "blob1" (some "0xdef")
      (fun _ => FetchOutcome.ok []) "pay1" "t1" (fun _ => [])).2.2
    samplePaidState "0xdef" (by decide)

/-- Claim C4: on a granted content request for an item whose stored
pointer has no IV, the mediator returns the fetched bytes UTF-8
decoded, unchanged, and decryption is never invoked - the response does
not depend on the decryption collaborator or on the AES secret; for an
item whose stored pointer carries an IV, the decrypt path is taken: the
returned content is the UTF-8 decoding of the AES decryption of the
fetched bytes under the derived key and the stored IV. -/
theorem C4_legacy_vs_encrypted_path
    (aesDec aesDec2 : List Nat → List Nat → List Nat → List Nat)
    (utf8Dec : List Nat → String) (aesSecret aesSecret2 : Option String)
    (st : BlobStorageState) (id user : String) (blob : BlobInfo)
    (bytes : List Nat) (fetch : String → FetchOutcome)
    (paymentId now : String)
    (hblob : getBlob st id = some blob)
    (hbid : blob.walrus.contentBlob.blobId ≠ "")
    (hfetch : fetch blob.walrus.contentBlob.blobId = FetchOutcome.ok bytes) :
    (blob.walrus.contentBlob.iv = none →
      (contentRequest aesDec utf8Dec aesSecret PaymentCheck.verified st id
          (some user) fetch paymentId now).1 =
        ContentResponse.granted
          { blobId := id, title := blob.title, content := utf8Dec bytes,
            uploadDate := blob.uploadDate, ownerAddress := blob.ownerAddress,
            isPublic := blob.isPublic,
            paymentInfo := some (freshPayment paymentId
              blob.accessControl.paymentDetails.price now) } ∧
      contentRequest aesDec utf8Dec aesSecret PaymentCheck.verified st id
          (some user) fetch paymentId now =
        contentRequest aesDec2 utf8Dec aesSecret2 PaymentCheck.verified st id
          (some user) fetch paymentId now) ∧
    (∀ ivHex K, blob.walrus.contentBlob.iv = some ivHex →
      aesSecret = some K → (deriveKey K).length = 32 →
      (contentRequest aesDec utf8Dec aesSecret PaymentCheck.verified st id
          (some user) fetch paymentId now).1 =
        ContentResponse.granted
          { blobId := id, title := blob.title,
            content := utf8Dec (aesDec (deriveKey K) (hexDecode ivHex.data)
              bytes),
            uploadDate := blob.uploadDate, ownerAddress := blob.ownerAddress,
            isPublic := blob.isPublic,
            paymentInfo := some (freshPayment paymentId
              blob.accessControl.paymentDetails.price now) }) := by
  simp only [getBlob] at hblob
  constructor
  · intro hiv
    constructor
    · simp only [contentRequest, getBlob, hblob, hbid, if_false, hfetch, hiv]
      rw [getPaymentInfo_recordPayment_self st id user paymentId
        blob.accessControl.paymentDetails.price now blob hblob]
    · simp only [contentRequest, getBlob, hblob, hbid, if_false, hfetch, hiv]
  · intro ivHex K hiv hsec hkey
    subst hsec
    simp only [contentRequest, getBlob, hblob, hbid, if_false, hfetch, hiv,
      decryptContent, hkey, if_pos]
    rw [getPaymentInfo_recordPayment_self st id user paymentId
      blob.accessControl.paymentDetails.price now blob hblob]

/-- Legacy item without a stored IV, used in the C4 witness. -/
def legacyBlob : BlobInfo :=
  { id := "blob2", title := "Old", uploadDate := "2023-01-01T00:00:00Z",
    ownerAddress := "0xabc", isPublic := false,
    previewText := some "Old\n\n\n\nhe",
    accessControl := defaultAccessControl "0xabc",
    payments := [],
    walrus :=
      { contentBlob :=
          { blobId := "wal2", storageEpochs := 1,
            isCertified := true, uploadStatus := "success",
            uploadDate := "2023-01-01T00:00:00Z", iv := none },
        overallStatus := "success" } }

/-- One-item ledger state holding the legacy item. -/
def legacyState : BlobStorageState :=
  { blobs := [("blob2", legacyBlob)],
    savedFile := some [("blob2", legacyBlob)] }

/-- Witness for claim C4: a granted request for the legacy item returns
the fetched bytes decoded, with no decryption involved. -/
theorem C4_legacy_vs_encrypted_path_witness :
    (contentRequest (fun _ _ c => c) charByteDec none PaymentCheck.verified
        legacyState "blob2" (some "0xdef")
        (fun _ => FetchOutcome.ok (charByteEnc "hello world"))
        "pay1" "t1").1 =
      ContentResponse.granted
        { blobId := "blob2", title := "Old",
          content := charByteDec (charByteEnc "hello world"),
          uploadDate := "2023-01-01T00:00:00Z", ownerAddress := "0xabc",
          isPublic := false,
          paymentInfo := some (freshPayment "pay1" "0.01" "t1") } :=
  ((C4_legacy_vs_encrypted_path (fun _ _ c => c) (fun _ _ c => c) charByteDec
      none none legacyState "blob2" "0xdef" legacyBlob
      (charByteEnc "hello world")
      (fun _ => FetchOutcome.ok (charByteEnc "hello world"))
      "pay1" "t1" (by decide) (by decide) rfl).1 rfl).1

/-! ## Ingestion Pipeline: POST /api/upload -/

/-- Lowercase hex digit character for a value below 16. -/
def hexDigitChar (n : Nat) : Char :=
  if n < 10 then Char.ofNat (48 + n) else Char.ofNat (87 + n)

/-- Buffer.toString with hex encoding: two lowercase hex digits per
byte. -/
def hexEncode (bytes : List Nat) : String :=
  String.mk (bytes.flatMap (fun b => [hexDigitChar (b / 16), hexDigitChar (b % 16)]))

/-- JS String.substring from 0 to m over the modelled character
sequence. -/
def jsSubstring (s : String) (m : Nat) : String := String.mk (s.data.take m)

/-- Length of the content preview stored at publish time:
min(200, Math.floor(content.length * 0.3)).  For every representable JS
string length n the floating point product n * 0.3 floors to 3n/10, so
the Nat formula is exact. -/
def previewFragLen (n : Nat) : Nat := min 200 (n * 3 / 10)

/-- Content preview fragment stored at publish time. -/
def contentPreviewOf (content : String) : String :=
  jsSubstring content (previewFragLen content.data.length)

/-- Preview text stored at publish time: title, description and content
fragment joined by blank lines. -/
def previewTextOf (title description content : String) : String :=
  title ++ "\n\n" ++ description ++ "\n\n" ++ contentPreviewOf content

/-- Responses of the upload endpoint: 400 validation errors, the
catch-all 500, the Walrus-failure 500 (success false), or the 200
payload carrying the created BlobInfo. -/
inductive UploadResponse
  | validationError (error : String)
  | serverError (error : String)
  | walrusFailed (details : String)
  | ok (blobInfo : BlobInfo)
deriving DecidableEq, Repr

/-- Shallow embedding of the POST /api/upload handler.  keypairOk models
whether the Sui keypair was configured (a missing keypair throws into
the catch-all), walrusWrite is the Walrus writeFiles collaborator
(thrown error message, or the optional blob id of the write result - a
missing blob id is also a failure), aesEnc, utf8Enc, aesSecret and
ivRand are the encryption collaborators and randomness, and now is the
request timestamp.  The WAL balance check of the source only logs and
is dropped. -/
def uploadRequest (aesEnc : List Nat → List Nat → List Nat → List Nat)
    (utf8Enc : String → List Nat) (aesSecret : Option String)
    (ivRand : List Nat) (keypairOk : Bool) (st : BlobStorageState)
    (title description content ownerAddress : String)
    (walrusWrite : List Nat → Except String (Option String))
    (now : String) : UploadResponse × BlobStorageState :=
  if title = "" ∨ content = "" then
    (UploadResponse.validationError "Both title and content are required", st)
  else if ownerAddress = "" then
    (UploadResponse.validationError "ownerAddress is required", st)
  else if keypairOk = false then
    (UploadResponse.serverError "Failed to upload content", st)
  else
    match encryptContent aesEnc utf8Enc aesSecret ivRand content with
    | Except.error _ =>
        (UploadResponse.serverError "Failed to upload content", st)
    | Except.ok (encryptedData, iv) =>
        match walrusWrite encryptedData with
        | Except.error msg => (UploadResponse.walrusFailed msg, st)
        | Except.ok none =>
            (UploadResponse.walrusFailed
              "Walrus upload failed: Missing blob ID from response", st)
        | Except.ok (some contentBlobId) =>
            let r := createBlob st
              { title := title, ownerAddress := ownerAddress,
                isPublic := false,
                previewText := some (previewTextOf title description content),
                accessControl := defaultAccessControl ownerAddress,
                walrus := some
                  { contentBlob :=
                      { blobId := contentBlobId, storageEpochs := 1,
                        isCertified := true, uploadStatus := "success",
                        uploadDate := now, iv := some (hexEncode iv) },
                    overallStatus := "success" } }
              contentBlobId now
            (UploadResponse.ok r.1, r.2)

/-- Claim C3: if the storage-collaborator write fails (throws, or
returns a result without a blob id), the upload call returns an error
and no item is registered: the ledger map and the persisted registry
file are exactly as they were before the request, and no success
response is possible.  With an otherwise valid request the response is
exactly the Walrus-failure error carrying the collaborator message. -/
theorem C3_upload_atomic_on_storage_failure
    (aesEnc : List Nat → List Nat → List Nat → List Nat)
    (utf8Enc : String → List Nat) (aesSecret : Option String)
    (ivRand : List Nat) (keypairOk : Bool) (st : BlobStorageState)
    (title description content ownerAddress : String)
    (walrusWrite : List Nat → Except String (Option String)) (now : String)
    (hfail : ∀ bytes bid, walrusWrite bytes ≠ Except.ok (some bid)) :
    ((uploadRequest aesEnc utf8Enc aesSecret ivRand keypairOk st title
        description content ownerAddress walrusWrite now).2 = st ∧
      ∀ b, (uploadRequest aesEnc utf8Enc aesSecret ivRand keypairOk st title
        description content ownerAddress walrusWrite now).1 ≠
          UploadResponse.ok b) ∧
    (∀ ct iv msg, title ≠ "" → content ≠ "" → ownerAddress ≠ "" →
      keypairOk = true →
      encryptContent aesEnc utf8Enc aesSecret ivRand content =
        Except.ok (ct, iv) →
      walrusWrite ct = Except.error msg →
      uploadRequest aesEnc utf8Enc aesSecret ivRand keypairOk st title
        description content ownerAddress walrusWrite now =
        (UploadResponse.walrusFailed msg, st)) := by
  constructor
  · unfold uploadRequest
    by_cases h1 : title = "" ∨ content = ""
    · simp [h1]
    · simp only [h1, if_false]
      by_cases h2 : ownerAddress = ""
      · simp [h2]
      · simp only [h2, if_false]
        by_cases h3 : keypairOk = false
        · simp [h3]
        · simp only [h3, if_false]
          cases he : encryptContent aesEnc utf8Enc aesSecret ivRand content with
          | error msg => simp [he]
          | ok p =>
              obtain ⟨ct, iv⟩ := p
              cases hw : walrusWrite ct with
              | error msg => simp [he, hw]
              | ok obid =>
                  cases obid with
                  | none => simp [he, hw]
                  | some bid => exact absurd hw (hfail ct bid)
  · intro ct iv msg h1 h2 h3 h4 henc hw
    unfold uploadRequest
    simp [h1, h2, h3, h4, henc, hw]

/-- Witness for claim C3: a valid publish request against an
always-failing storage collaborator leaves the empty ledger empty and
reports the failure. -/
theorem C3_upload_atomic_on_storage_failure_witness :
    uploadRequest (fun _ _ m => m) charByteEnc
      (some "0000000000000000000000000000000000000000000000000000000000000000")
      (List.replicate 16 0) true
      { blobs := [], savedFile := none } "A" "" "hello world" "0xabc"
      (fun _ => Except.error "network down") "t0" =
      (UploadResponse.walrusFailed "network down",
        { blobs := [], savedFile := none }) :=
  (C3_upload_atomic_on_storage_failure (fun _ _ m => m) charByteEnc
      (some "0000000000000000000000000000000000000000000000000000000000000000")
      (List.replicate 16 0) true
      { blobs := [], savedFile := none } "A" "" "hello world" "0xabc"
      (fun _ => Except.error "network down") "t0"
      (fun _ _ h => Except.noConfusion h)).2
    (charByteEnc "hello world") (List.replicate 16 0) "network down"
    (by decide) (by decide) (by decide) rfl rfl rfl

/-! ## The blank-line preview format: JS split and join on two
newlines -/

/-- JS String.split on the two-newline separator: scan left to right,
cutting at every non-overlapping occurrence. -/
def splitNN : List Char → List (List Char)
  | [] => [[]]
  | [c] => [[c]]
  | c :: d :: rest =>
      if c = '\n' ∧ d = '\n' then [] :: splitNN rest
      else
        match splitNN (d :: rest) with
        | h :: t => (c :: h) :: t
        | [] => [[c]]

/-- JS Array.join with the two-newline separator. -/
def joinNN : List (List Char) → List Char
  | [] => []
  | [x] => x
  | x :: y :: t => x ++ '\n' :: '\n' :: joinNN (y :: t)

/-- True when the two-newline separator occurs in the sequence. -/
def hasNN : List Char → Bool
  | [] => false
  | [_] => false
  | c :: d :: rest =>
      if c = '\n' ∧ d = '\n' then true else hasNN (d :: rest)

theorem splitNN_ne_nil (l : List Char) : splitNN l ≠ [] := by
  match l with
  | [] => simp [splitNN]
  | [c] => simp [splitNN]
  | c :: d :: rest =>
      by_cases h : c = '\n' ∧ d = '\n'
      · simp [splitNN, h]
      · simp only [splitNN, h, if_false]
        cases hs : splitNN (d :: rest) with
        | nil => simp
        | cons x xs => simp

theorem joinNN_cons_ne (x : List Char) (xs : List (List Char))
    (h : xs ≠ []) : joinNN (x :: xs) = x ++ '\n' :: '\n' :: joinNN xs := by
  cases xs with
  | nil => exact absurd rfl h
  | cons y t => rfl

theorem joinNN_cons_cons (c : Char) (h : List Char)
    (t : List (List Char)) :
    joinNN ((c :: h) :: t) = c :: joinNN (h :: t) := by
  cases t with
  | nil => rfl
  | cons y t2 => simp [joinNN]

theorem joinNN_splitNN (l : List Char) : joinNN (splitNN l) = l := by
  induction l using splitNN.induct with
  | case1 => rfl
  | case2 c => rfl
  | case3 c d rest h ih =>
      obtain ⟨hc, hd⟩ := h
      subst hc
      subst hd
      rw [splitNN, if_pos (And.intro rfl rfl)]
      rw [joinNN_cons_ne _ _ (splitNN_ne_nil rest), ih]
      rfl
  | case4 c d rest h x t heq ih =>
      rw [splitNN, if_neg h, heq]
      simp only []
      rw [joinNN_cons_cons]
      rw [heq] at ih
      rw [ih]
  | case5 c d rest h heq ih =>
      exact absurd heq (splitNN_ne_nil (d :: rest))

theorem hasNN_tail_false (c : Char) (l : List Char)
    (h : hasNN (c :: l) = false) : hasNN l = false := by
  cases l with
  | nil => rfl
  | cons d rest =>
      by_cases hcd : c = '\n' ∧ d = '\n'
      · simp [hasNN, hcd] at h
      · simpa [hasNN, hcd] using h

theorem splitNN_clean_append (a rest : List Char)
    (h : hasNN (a ++ ['\n']) = false) :
    splitNN (a ++ '\n' :: '\n' :: rest) = a :: splitNN rest := by
  induction a with
  | nil =>
      simp only [List.nil_append]
      simp [splitNN]
  | cons c a2 ih =>
      have h2 : hasNN (a2 ++ ['\n']) = false :=
        hasNN_tail_false c (a2 ++ ['\n']) (by simpa using h)
      have ihr := ih h2
      cases a2 with
      | nil =>
          have hc : ¬ (c = '\n') := by
            intro hh
            subst hh
            simp [hasNN] at h
          simp only [List.nil_append] at ihr
          simp only [List.cons_append, List.nil_append]
          rw [splitNN]
          simp only [hc, false_and, if_false]
          rw [ihr]
      | cons e a3 =>
          have hce : ¬ (c = '\n' ∧ e = '\n') := by
            intro hh
            obtain ⟨hc, he⟩ := hh
            subst hc
            subst he
            simp [hasNN] at h
          simp only [List.cons_append] at ihr ⊢
          rw [splitNN]
          simp only [hce, if_false]
          rw [ihr]

/-! ## Access Mediator: GET /api/blobs/:id/preview -/

/-- JS split of a string on the two-newline separator. -/
def splitNNStr (s : String) : List String := (splitNN s.data).map String.mk

/-- JS join of strings with the two-newline separator. -/
def joinNNStr (l : List String) : String :=
  String.mk (joinNN (l.map String.data))

theorem mkData (s : String) : String.mk s.data = s := by
  cases s
  rfl

theorem dataAppend (a b : String) : (a ++ b).data = a.data ++ b.data := by
  cases a
  cases b
  rfl

theorem take_isPrefixOf (l : List Char) (m : Nat) :
    (l.take m).isPrefixOf l = true := by
  induction l generalizing m with
  | nil => simp [List.take, List.isPrefixOf]
  | cons c rest ih =>
      cases m with
      | zero => simp [List.isPrefixOf]
      | succ m2 => simp [List.isPrefixOf, ih]

/-- Payload of the preview endpoint 200 response (payment details
flattened). -/
structure PreviewPayload where
  blobId : String
  title : String
  description : String
  contentPreview : String
  ownerAddress : String
  uploadDate : String
  price : String
  currency : String
  network : String
deriving DecidableEq, Repr

/-- Responses of the preview endpoint. -/
inductive PreviewResponse
  | notFound (error : String)
  | ok (payload : PreviewPayload)
deriving DecidableEq, Repr

/-- Shallow embedding of the GET /api/blobs/:id/preview handler: it
takes no requester identity and performs no payment check; it parses
the stored preview text back into title, description and content
preview by splitting on blank lines, the content preview being the
parts from index 2 on rejoined. -/
def previewRequest (st : BlobStorageState) (id : String) : PreviewResponse :=
  match getBlob st id with
  | none => PreviewResponse.notFound "Blob not found"
  | some blob =>
      match blob.previewText with
      | none => PreviewResponse.notFound "Preview not available for this blob"
      | some ptext =>
          if ptext = "" then
            PreviewResponse.notFound "Preview not available for this blob"
          else
            let parts := splitNNStr ptext
            PreviewResponse.ok
              { blobId := id,
                title := (parts.get? 0).getD "",
                description := (parts.get? 1).getD "",
                contentPreview :=
                  if 2 < parts.length then joinNNStr (parts.drop 2) else "",
                ownerAddress := blob.ownerAddress,
                uploadDate := blob.uploadDate,
                price := blob.accessControl.paymentDetails.price,
                currency := blob.accessControl.paymentDetails.currency,
                network := blob.accessControl.paymentDetails.network }

theorem sepData : ("\n\n" : String).data = ['\n', '\n'] := rfl

theorem emptyData : ("" : String).data = [] := rfl

theorem previewTextOf_data (t d c : String) :
    (previewTextOf t d c).data =
      t.data ++ '\n' :: '\n' ::
        (d.data ++ '\n' :: '\n' :: (contentPreviewOf c).data) := by
  simp [previewTextOf, dataAppend, sepData, List.append_assoc]

theorem previewTextOf_ne_empty (t d c : String) :
    previewTextOf t d c ≠ "" := by
  intro heq
  have hd2 := congrArg String.data heq
  rw [previewTextOf_data, emptyData] at hd2
  simp at hd2

theorem splitNNStr_previewTextOf (t d c : String)
    (hct : hasNN (t.data ++ ['\n']) = false)
    (hcd : hasNN (d.data ++ ['\n']) = false) :
    splitNNStr (previewTextOf t d c) =
      t :: d :: (splitNN (contentPreviewOf c).data).map String.mk := by
  unfold splitNNStr
  rw [previewTextOf_data, splitNN_clean_append _ _ hct,
    splitNN_clean_append _ _ hcd]
  simp [mkData]

theorem joinNNStr_map_mk (l : List (List Char)) :
    joinNNStr (l.map String.mk) = String.mk (joinNN l) := by
  unfold joinNNStr
  rw [List.map_map]
  have hcomp : (String.data ∘ String.mk) = id := funext (fun _ => rfl)
  rw [hcomp, List.map_id]

theorem previewRequest_ok (st : BlobStorageState) (id : String)
    (blob : BlobInfo) (t d c : String)
    (hb : getBlob st id = some blob)
    (hp : blob.previewText = some (previewTextOf t d c))
    (hct : hasNN (t.data ++ ['\n']) = false)
    (hcd : hasNN (d.data ++ ['\n']) = false) :
    previewRequest st id = PreviewResponse.ok
      { blobId := id, title := t, description := d,
        contentPreview := contentPreviewOf c,
        ownerAddress := blob.ownerAddress, uploadDate := blob.uploadDate,
        price := blob.accessControl.paymentDetails.price,
        currency := blob.accessControl.paymentDetails.currency,
        network := blob.accessControl.paymentDetails.network } := by
  have hparts := splitNNStr_previewTextOf t d c hct hcd
  have hlen2 : 2 < (splitNNStr (previewTextOf t d c)).length := by
    rw [hparts]
    have h1 : splitNN (contentPreviewOf c).data ≠ [] :=
      splitNN_ne_nil (contentPreviewOf c).data
    have h2 : 0 < (splitNN (contentPreviewOf c).data).length :=
      List.length_pos.2 h1
    simp
    omega
  unfold previewRequest
  rw [hb]
  simp only []
  rw [hp]
  simp only []
  rw [if_neg (previewTextOf_ne_empty t d c)]
  rw [if_pos hlen2, hparts]
  simp only [List.get?, List.drop, Option.getD]
  rw [joinNNStr_map_mk, joinNN_splitNN, mkData]

/-- Claim C5 (amended): for every successfully published item with
non-empty content whose title and description do not interfere with the
blank-line preview format (no two-newline separator occurs in
title++newline or description++newline), the preview endpoint - which
takes no requester identity at all - serves exactly the content
fragment stored at publish time: min(200, floor(0.3 |content|))
characters, at most 200 characters, a proper prefix of the content and
so never the full content.  Unamended the claim is false: a description
containing a blank line shifts the parse, see the counterexample. -/
theorem C5_preview_bounded_fragment
    (aesEnc : List Nat → List Nat → List Nat → List Nat)
    (utf8Enc : String → List Nat) (aesSecret : Option String)
    (ivRand : List Nat) (st : BlobStorageState)
    (title description content ownerAddress : String)
    (walrusWrite : List Nat → Except String (Option String))
    (now bid : String) (ct iv : List Nat)
    (htitle : title ≠ "") (hcontent : content ≠ "")
    (howner : ownerAddress ≠ "")
    (hct : hasNN (title.data ++ ['\n']) = false)
    (hcd : hasNN (description.data ++ ['\n']) = false)
    (henc : encryptContent aesEnc utf8Enc aesSecret ivRand content =
      Except.ok (ct, iv))
    (hwrite : walrusWrite ct = Except.ok (some bid)) :
    previewRequest (uploadRequest aesEnc utf8Enc aesSecret ivRand true st
        title description content ownerAddress walrusWrite now).2 bid =
      PreviewResponse.ok
        { blobId := bid, title := title, description := description,
          contentPreview := contentPreviewOf content,
          ownerAddress := ownerAddress, uploadDate := now,
          price := "0.01", currency := "USDC", network := "base-testnet" } ∧
    (contentPreviewOf content).data.length ≤ 200 ∧
    (contentPreviewOf content).data.length < content.data.length ∧
    (contentPreviewOf content).data.isPrefixOf content.data = true := by
  have hup : (uploadRequest aesEnc utf8Enc aesSecret ivRand true st
      title description content ownerAddress walrusWrite now).2 =
      saveBlobInfo (ainsert st.blobs bid
        { id := bid, title := title, uploadDate := now,
          ownerAddress := ownerAddress, isPublic := false,
          previewText := some (previewTextOf title description content),
          accessControl := defaultAccessControl ownerAddress,
          payments := [],
          walrus :=
            { contentBlob :=
                { blobId := bid, storageEpochs := 1, isCertified := true,
                  uploadStatus := "success", uploadDate := now,
                  iv := some (hexEncode iv) },
              overallStatus := "success" } }) := by
    unfold uploadRequest
    simp [htitle, hcontent, howner, henc, hwrite, createBlob]
  have hn : content.data.length ≠ 0 := by
    intro h0
    apply hcontent
    cases content with
    | mk l =>
        cases l with
        | nil => rfl
        | cons a as => simp at h0
  have hlen : (contentPreviewOf content).data.length =
      min (min 200 (content.data.length * 3 / 10)) content.data.length := by
    simp [contentPreviewOf, jsSubstring, previewFragLen, List.length_take]
  have hdiv : content.data.length * 3 / 10 < content.data.length := by
    omega
  refine ⟨?_, ?_, ?_, ?_⟩
  · rw [hup]
    exact previewRequest_ok
      (saveBlobInfo (ainsert st.blobs bid
        { id := bid, title := title, uploadDate := now,
          ownerAddress := ownerAddress, isPublic := false,
          previewText := some (previewTextOf title description content),
          accessControl := defaultAccessControl ownerAddress,
          payments := [],
          walrus :=
            { contentBlob :=
                { blobId := bid, storageEpochs := 1, isCertified := true,
                  uploadStatus := "success", uploadDate := now,
                  iv := some (hexEncode iv) },
              overallStatus := "success" } }))
      bid
      { id := bid, title := title, uploadDate := now,
        ownerAddress := ownerAddress, isPublic := false,
        previewText := some (previewTextOf title description content),
        accessControl := defaultAccessControl ownerAddress,
        payments := [],
        walrus :=
          { contentBlob :=
              { blobId := bid, storageEpochs := 1, isCertified := true,
                uploadStatus := "success", uploadDate := now,
                iv := some (hexEncode iv) },
            overallStatus := "success" } }
      title description content
      (by simp [getBlob, saveBlobInfo, alookup_ainsert_self]) rfl hct hcd
  · omega
  · omega
  · have : (contentPreviewOf content).data =
        content.data.take (previewFragLen content.data.length) := by
      simp [contentPreviewOf, jsSubstring]
    rw [this]
    exact take_isPrefixOf content.data (previewFragLen content.data.length)

/-- Witness for the amended claim C5 at the scenario inputs: title A,
content hello world, owner 0xabc; the served fragment is the stored
3-character prefix. -/
theorem C5_preview_bounded_fragment_witness :
    previewRequest (uploadRequest (fun _ _ m => m) charByteEnc
        (some "0000000000000000000000000000000000000000000000000000000000000000")
        (List.replicate 16 0) true { blobs := [], savedFile := none }
        "A" "" "hello world" "0xabc"
        (fun _ => Except.ok (some "walA")) "t0").2 "walA" =
      PreviewResponse.ok
        { blobId := "walA", title := "A", description := "",
          contentPreview := contentPreviewOf "hello world",
          ownerAddress := "0xabc", uploadDate := "t0",
          price := "0.01", currency := "USDC", network := "base-testnet" } :=
  (C5_preview_bounded_fragment (fun _ _ m => m) charByteEnc
      (some "0000000000000000000000000000000000000000000000000000000000000000")
      (List.replicate 16 0) { blobs := [], savedFile := none }
      "A" "" "hello world" "0xabc" (fun _ => Except.ok (some "walA"))
      "t0" "walA" (charByteEnc "hello world") (List.replicate 16 0)
      (by decide) (by decide) (by decide) (by decide) (by decide)
      rfl rfl).1

/-- Counterexample to claim C5 as stated: publishing with a description
that contains a blank line makes the preview endpoint serve the full
content as the content fragment, while the fragment stored at publish
time is the 6-character proper prefix the claim requires. -/
theorem C5_preview_counterexample :
    previewRequest (uploadRequest (fun _ _ m => m) charByteEnc
        (some "0000000000000000000000000000000000000000000000000000000000000000")
        (List.replicate 16 0) true { blobs := [], savedFile := none }
        "T" "D\n\nabcdefghijkl" "abcdefghijkl\n\nabcdef" "0xabc"
        (fun _ => Except.ok (some "walX")) "t0").2 "walX" =
      PreviewResponse.ok
        { blobId := "walX", title := "T", description := "D",
          contentPreview := "abcdefghijkl\n\nabcdef",
          ownerAddress := "0xabc", uploadDate := "t0",
          price := "0.01", currency := "USDC", network := "base-testnet" } ∧
    contentPreviewOf "abcdefghijkl\n\nabcdef" = "abcdef" := by
  constructor
  · decide
  · decide

/-! ## ArticleDatabase (the second registry) and its load migration -/

/-- Canonical blob reference of an Article after migration. -/
structure ArticleBlobRef where
  blobId : Option String
  objectId : Option String
  storageEpochs : Option Nat
  isCertified : Bool
  uploadStatus : String
  uploadDate : Option String
  errorMessage : Option String
deriving DecidableEq, Repr

structure ArticleWalrus where
  previewBlob : ArticleBlobRef
  contentBlob : ArticleBlobRef
  overallStatus : String
deriving DecidableEq, Repr

structure ArticleLocal where
  filePath : Option String
  fileSize : Option Nat
  isCompressed : Bool
deriving DecidableEq, Repr

structure ArticleOwner where
  suiAddress : String
  isPublic : Bool
  transferable : Bool
deriving DecidableEq, Repr

/-- Canonical Article record; localInfo models the local field of the
source (local is reserved in Lean). -/
structure Article where
  id : String
  fileName : String
  originalFileSize : Nat
  uploadDate : String
  lastModified : String
  version : String
  tags : List String
  author : String
  walrus : ArticleWalrus
  localInfo : ArticleLocal
  owner : ArticleOwner
deriving DecidableEq, Repr

/-- Raw decoded blob reference as read from disk: every field may be
absent (none models both a missing key and a JS falsy value, which the
defaulting treats alike). -/
structure RawBlobRef where
  blobId : Option String
  objectId : Option String
  storageEpochs : Option Nat
  isCertified : Option Bool
  uploadStatus : Option String
  uploadDate : Option String
  errorMessage : Option String
deriving DecidableEq, Repr

structure RawWalrus where
  previewBlob : Option RawBlobRef
  contentBlob : Option RawBlobRef
  overallStatus : Option String
deriving DecidableEq, Repr

structure RawLocal where
  filePath : Option String
  fileSize : Option Nat
  isCompressed : Option Bool
deriving DecidableEq, Repr

structure RawOwner where
  suiAddress : Option String
  isPublic : Option Bool
  transferable : Option Bool
deriving DecidableEq, Repr

/-- Raw decoded article record as read from disk. -/
structure RawArticle where
  id : Option String
  fileName : Option String
  originalFileSize : Option Nat
  uploadDate : Option String
  lastModified : Option String
  version : Option String
  tags : Option (List String)
  author : Option String
  walrus : Option RawWalrus
  localInfo : Option RawLocal
  owner : Option RawOwner
deriving DecidableEq, Repr

/-- Field-by-field defaulting of one blob reference, as in
validateAndMigrateArticle: ids default to null, isCertified to false,
uploadStatus to local-only. -/
def migrateBlobRef (raw : Option RawBlobRef) : ArticleBlobRef :=
  { blobId := raw.bind RawBlobRef.blobId,
    objectId := raw.bind RawBlobRef.objectId,
    storageEpochs := raw.bind RawBlobRef.storageEpochs,
    isCertified := (raw.bind RawBlobRef.isCertified).getD false,
    uploadStatus := (raw.bind RawBlobRef.uploadStatus).getD "local-only",
    uploadDate := raw.bind RawBlobRef.uploadDate,
    errorMessage := raw.bind RawBlobRef.errorMessage }

/-- ArticleDatabase.validateAndMigrateArticle: default every missing
field and substructure; now stands for the load-time timestamp used for
missing dates.  The source returns null only when an exception occurs,
which the pure defaulting cannot raise, hence always some. -/
def validateAndMigrateArticle (now : String) (a : RawArticle) :
    Option Article :=
  some
    { id := a.id.getD "", fileName := a.fileName.getD "",
      originalFileSize := a.originalFileSize.getD 0,
      uploadDate := a.uploadDate.getD now,
      lastModified := a.lastModified.getD now,
      version := a.version.getD "1.0.0",
      tags := a.tags.getD [],
      author := a.author.getD "",
      walrus :=
        { previewBlob := migrateBlobRef (a.walrus.bind RawWalrus.previewBlob),
          contentBlob := migrateBlobRef (a.walrus.bind RawWalrus.contentBlob),
          overallStatus :=
            (a.walrus.bind RawWalrus.overallStatus).getD "local-only" },
      localInfo :=
        { filePath := a.localInfo.bind RawLocal.filePath,
          fileSize := a.localInfo.bind RawLocal.fileSize,
          isCompressed := (a.localInfo.bind RawLocal.isCompressed).getD false },
      owner :=
        { suiAddress := (a.owner.bind RawOwner.suiAddress).getD "",
          isPublic := (a.owner.bind RawOwner.isPublic).getD false,
          transferable := (a.owner.bind RawOwner.transferable).getD false } }

/-- ArticleDatabase.loadDatabase validation loop: validate each stored
record, keeping the successful ones in order. -/
def loadArticles (now : String) (raw : List (String × RawArticle)) :
    List (String × Article) :=
  raw.filterMap (fun p =>
    (validateAndMigrateArticle now p.2).map (fun art => (p.1, art)))

/-- Raw persisted BlobStorage record: accessControl and payments may be
missing in records written by older schema versions. -/
structure StoredBlobRecord where
  id : String
  title : String
  uploadDate : String
  ownerAddress : String
  isPublic : Bool
  previewText : Option String
  accessControl : Option AccessControl
  payments : Option (List (String × PaymentRecord))
  walrus : WalrusInfo
deriving DecidableEq, Repr

/-- One step of BlobStorage.migrateExistingBlobs: add the hard-coded
accessControl and an empty payments map when missing. -/
def migrateStoredBlob (b : StoredBlobRecord) : BlobInfo :=
  { id := b.id, title := b.title, uploadDate := b.uploadDate,
    ownerAddress := b.ownerAddress, isPublic := b.isPublic,
    previewText := b.previewText,
    accessControl := b.accessControl.getD (defaultAccessControl b.ownerAddress),
    payments := b.payments.getD [],
    walrus := b.walrus }

/-- BlobStorage.migrateExistingBlobs over the whole loaded map. -/
def migrateExistingBlobs (blobs : List (String × StoredBlobRecord)) :
    List (String × BlobInfo) :=
  blobs.map (fun p => (p.1, migrateStoredBlob p.2))

/-- Claim C6: loading persisted registry records succeeds even when
substructures are missing: a BlobStorage record without accessControl
gets the hard-coded payment-gated default, one without payments gets
the empty map, and no record is dropped; an ArticleDatabase record
without walrus, local or owner substructures loads with local-only
statuses and defaulted owner rather than failing, and the validation
loop keeps every record. -/
theorem C6_migration_defaults (now : String) (b : StoredBlobRecord)
    (a : RawArticle) (blobs : List (String × StoredBlobRecord))
    (raw : List (String × RawArticle)) :
    (b.accessControl = none →
      (migrateStoredBlob b).accessControl =
        defaultAccessControl b.ownerAddress) ∧
    (b.payments = none → (migrateStoredBlob b).payments = []) ∧
    (migrateExistingBlobs blobs).length = blobs.length ∧
    (a.walrus = none →
      (validateAndMigrateArticle now a).map
          (fun art => art.walrus.previewBlob.uploadStatus) =
        some "local-only" ∧
      (validateAndMigrateArticle now a).map
          (fun art => art.walrus.contentBlob.uploadStatus) =
        some "local-only" ∧
      (validateAndMigrateArticle now a).map
          (fun art => art.walrus.overallStatus) = some "local-only") ∧
    (a.owner = none →
      (validateAndMigrateArticle now a).map (fun art => art.owner) =
        some { suiAddress := "", isPublic := false, transferable := false }) ∧
    (validateAndMigrateArticle now a).isSome ∧
    (loadArticles now raw).length = raw.length := by
  refine ⟨?_, ?_, ?_, ?_, ?_, ?_, ?_⟩
  · intro h
    simp [migrateStoredBlob, h]
  · intro h
    simp [migrateStoredBlob, h]
  · simp [migrateExistingBlobs]
  · intro h
    simp [validateAndMigrateArticle, migrateBlobRef, h]
  · intro h
    simp [validateAndMigrateArticle, h]
  · simp [validateAndMigrateArticle]
  · induction raw with
    | nil => rfl
    | cons p rest ih =>
        simp [loadArticles, validateAndMigrateArticle]

/-- Fully absent raw records used in the C6 witness. -/
def emptyStoredRecord : StoredBlobRecord :=
  { id := "old1", title := "Old", uploadDate := "2023-01-01T00:00:00Z",
    ownerAddress := "0xabc", isPublic := false, previewText := none,
    accessControl := none, payments := none,
    walrus :=
      { contentBlob :=
          { blobId := "walOld", storageEpochs := 1, isCertified := false,
            uploadStatus := "success", uploadDate := "2023-01-01T00:00:00Z",
            iv := none },
        overallStatus := "success" } }

/-- Raw article with every field and substructure absent. -/
def emptyRawArticle : RawArticle :=
  { id := none, fileName := none, originalFileSize := none,
    uploadDate := none, lastModified := none, version := none,
    tags := none, author := none, walrus := none, localInfo := none,
    owner := none }

/-- Witness for claim C6 on fully absent substructures. -/
theorem C6_migration_defaults_witness :
    (migrateStoredBlob emptyStoredRecord).accessControl =
      defaultAccessControl "0xabc" ∧
    (migrateStoredBlob emptyStoredRecord).payments = [] ∧
    (validateAndMigrateArticle "t0" emptyRawArticle).map
        (fun art => art.walrus.overallStatus) = some "local-only" ∧
    (validateAndMigrateArticle "t0" emptyRawArticle).isSome :=
  ⟨(C6_migration_defaults "t0" emptyStoredRecord emptyRawArticle [] []).1 rfl,
   (C6_migration_defaults "t0" emptyStoredRecord emptyRawArticle [] []).2.1 rfl,
   ((C6_migration_defaults "t0" emptyStoredRecord emptyRawArticle [] []).2.2.2.1
      rfl).2.2,
   (C6_migration_defaults "t0" emptyStoredRecord emptyRawArticle []
      []).2.2.2.2.2.1⟩

/-! ## Search -/

/-- JS String.includes: does sub occur as a contiguous run in l. -/
def containsSub (sub : List Char) : List Char → Bool
  | [] => sub.isPrefixOf []
  | c :: rest => sub.isPrefixOf (c :: rest) || containsSub sub rest

/-- JS s.includes(q) over the modelled character sequences. -/
def jsIncludes (s q : String) : Bool := containsSub q.data s.data

/-- JS toLowerCase over the modelled characters. -/
def jsToLower (s : String) : String := String.mk (s.data.map Char.toLower)

/-- Responses of the GET /api/blobs/search handler. -/
inductive SearchResponse
  | badRequest (error : String)
  | ok (blobs : List BlobInfo)
deriving DecidableEq, Repr

/-- Shallow embedding of the GET /api/blobs/search handler: a missing,
non-string or empty (falsy) query is a 400; otherwise filter all blobs
by case-sensitive substring containment of the query in the title or
in the ownerAddress. -/
def searchBlobs (st : BlobStorageState) (q : Option String) :
    SearchResponse :=
  match q with
  | none => SearchResponse.badRequest "Query parameter \"q\" is required"
  | some qs =>
      if qs = "" then
        SearchResponse.badRequest "Query parameter \"q\" is required"
      else
        SearchResponse.ok ((getAllBlobs st).filter (fun blob =>
          jsIncludes blob.title qs || jsIncludes blob.ownerAddress qs))

/-- List of blobs carried by a search response, empty on the 400. -/
def searchBlobsList (st : BlobStorageState) (qs : String) : List BlobInfo :=
  match searchBlobs st (some qs) with
  | SearchResponse.ok l => l
  | SearchResponse.badRequest _ => []

/-- ArticleDatabase.searchArticles: case-insensitive substring match of
the query against each tag and against the file name. -/
def searchArticles (articles : List (String × Article)) (query : String) :
    List Article :=
  (articles.map Prod.snd).filter (fun article =>
    article.tags.any (fun tag =>
      jsIncludes (jsToLower tag) (jsToLower query)) ||
    jsIncludes (jsToLower article.fileName) (jsToLower query))

theorem isPrefixOf_iff_exists (sub l : List Char) :
    sub.isPrefixOf l = true ↔ ∃ post, l = sub ++ post := by
  induction sub generalizing l with
  | nil => simp [List.isPrefixOf]
  | cons c cs ih =>
      cases l with
      | nil => simp [List.isPrefixOf]
      | cons d ds =>
          simp only [List.isPrefixOf, Bool.and_eq_true, beq_iff_eq, ih,
            List.cons_append, List.cons.injEq]
          constructor
          · rintro ⟨hcd, post, hp⟩
            exact ⟨post, hcd.symm, hp⟩
          · rintro ⟨post, hdc, hp⟩
            exact ⟨hdc.symm, post, hp⟩

theorem containsSub_iff_exists (sub l : List Char) :
    containsSub sub l = true ↔ ∃ pre post, l = pre ++ sub ++ post := by
  induction l with
  | nil =>
      simp only [containsSub, isPrefixOf_iff_exists]
      constructor
      · rintro ⟨post, hp⟩
        exact ⟨[], post, by simpa using hp⟩
      · rintro ⟨pre, post, hp⟩
        refine ⟨post, ?_⟩
        have h1 : pre = [] := by
          cases pre with
          | nil => rfl
          | cons x xs => simp at hp
        subst h1
        simpa using hp
  | cons c rest ih =>
      simp only [containsSub, Bool.or_eq_true, isPrefixOf_iff_exists, ih]
      constructor
      · rintro (⟨post, hp⟩ | ⟨pre, post, hp⟩)
        · exact ⟨[], post, by simpa using hp⟩
        · exact ⟨c :: pre, post, by simp [hp]⟩
      · rintro ⟨pre, post, hp⟩
        cases pre with
        | nil =>
            left
            exact ⟨post, by simpa using hp⟩
        | cons x xs =>
            right
            simp only [List.cons_append, List.cons.injEq] at hp
            exact ⟨xs, post, hp.2⟩

/-- Counterexample to claim C7 as stated: the blob search endpoint is
case-sensitive (and also matches the ownerAddress), so a query that is
a case-insensitive substring of the stored title is not returned when
the case differs. -/
theorem C7_search_counterexample :
    searchBlobs
      { blobs := [("blob1",
          { sampleBlob with title := "Hello", ownerAddress := "0xddd" })],
        savedFile := none } (some "hello") = SearchResponse.ok [] ∧
    jsIncludes (jsToLower "Hello") (jsToLower "hello") = true := by
  constructor
  · decide
  · decide

/-- Claim C7 (amended): the blob search endpoint answers 400 on a
missing or empty (falsy) query, and otherwise returns exactly the
stored items whose title or ownerAddress contains the query as a
case-sensitive substring; the article search returns exactly the
stored articles with the query contained case-insensitively in some
tag or in the file name. -/
theorem C7_search_substring_semantics (st : BlobStorageState) (qs : String)
    (articles : List (String × Article)) (query : String) :
    (searchBlobs st none =
      SearchResponse.badRequest "Query parameter \"q\" is required") ∧
    (searchBlobs st (some "") =
      SearchResponse.badRequest "Query parameter \"q\" is required") ∧
    (qs ≠ "" →
      ∀ b, b ∈ searchBlobsList st qs ↔
        b ∈ getAllBlobs st ∧
        ((∃ pre post, b.title.data = pre ++ qs.data ++ post) ∨
         (∃ pre post, b.ownerAddress.data = pre ++ qs.data ++ post))) ∧
    (∀ art, art ∈ searchArticles articles query ↔
      art ∈ articles.map Prod.snd ∧
      ((∃ tag, tag ∈ art.tags ∧ ∃ pre post,
          (jsToLower tag).data = pre ++ (jsToLower query).data ++ post) ∨
       (∃ pre post,
          (jsToLower art.fileName).data =
            pre ++ (jsToLower query).data ++ post))) := by
  refine ⟨rfl, rfl, ?_, ?_⟩
  · intro hqs b
    simp [searchBlobsList, searchBlobs, hqs, List.mem_filter, jsIncludes,
      containsSub_iff_exists]
  · intro art
    simp [searchArticles, List.mem_filter, jsIncludes,
      containsSub_iff_exists, List.any_eq_true]

/-- Witness for the amended claim C7: with a stored blob titled Hello,
the non-empty query ell is found as a substring of the title and the
blob is returned. -/
theorem C7_search_substring_semantics_witness :
    { sampleBlob with title := "Hello", ownerAddress := "0xddd" } ∈
      searchBlobsList
        { blobs := [("blob1",
            { sampleBlob with title := "Hello", ownerAddress := "0xddd" })],
          savedFile := none } "ell" :=
  ((C7_search_substring_semantics
      { blobs := [("blob1",
          { sampleBlob with title := "Hello", ownerAddress := "0xddd" })],
        savedFile := none } "ell" [] "").2.2.1 (by decide)
    { sampleBlob with title := "Hello", ownerAddress := "0xddd" }).mpr
    ⟨by decide, Or.inl ⟨['H'], ['o'], by decide⟩⟩

end Mediearn
